import Mathlib

/-!
Verification development for the Solana token ATH checker
(getcoinath.py). The Python source is shallowly embedded below:
prices are modelled as rationals, datetimes as an explicit record,
HTTP traffic as an oracle from URLs to responses, and the process
main flow as a pure function returning an exit code together with
the trace of issued requests.
-/

set_option autoImplicit false

namespace Getcoinath

/-! ### Decimal digit and string helpers -/

/-- Character for a decimal digit value 0 to 9. -/
def digitChar : Nat → Char
  | 0 => '0'
  | 1 => '1'
  | 2 => '2'
  | 3 => '3'
  | 4 => '4'
  | 5 => '5'
  | 6 => '6'
  | 7 => '7'
  | 8 => '8'
  | 9 => '9'
  | _ => '*'

/-- Numeric value of a decimal digit character. -/
def charDigit (c : Char) : Nat := c.toNat - 48

/-- Little-endian decimal digits of a number, with explicit fuel so that
the recursion is structural. -/
def toDigitsAux : Nat → Nat → List Nat
  | 0, _ => []
  | fuel + 1, n => if n = 0 then [] else n % 10 :: toDigitsAux fuel (n / 10)

/-- Big-endian decimal character rendering of a natural number. -/
def natChars (n : Nat) : List Char :=
  if n = 0 then ['0'] else (toDigitsAux n n).reverse.map digitChar

/-- Decimal string of a natural number. -/
def natStr (n : Nat) : String := String.mk (natChars n)

/-- Value of a little-endian digit list. -/
def ofDigitsLE : List Nat → Nat
  | [] => 0
  | d :: t => d + 10 * ofDigitsLE t

/-- Value of a big-endian list of decimal digit characters. -/
def ofChars (l : List Char) : Nat := l.foldl (fun a c => 10 * a + charDigit c) 0

/-- Two-digit zero padding, as the strftime directives with a 0 pad. -/
def pad2 (n : Nat) : String := if n < 10 then "0" ++ natStr n else natStr n

/-- Replacement of every occurrence of a character by a string, modelling
the Python str.replace calls with a one-character pattern. -/
def charReplace (a : Char) (rep : List Char) : List Char → List Char
  | [] => []
  | c :: t => (if c = a then rep else [c]) ++ charReplace a rep t

/-- String version of charReplace. -/
def strReplaceChar (a : Char) (rep : String) (s : String) : String :=
  String.mk (charReplace a rep.data s.data)

/-- ASCII uppercase, modelling str.upper on the inputs of interest. -/
def strUpper (s : String) : String := String.mk (s.data.map Char.toUpper)

/-- ASCII lowercase, modelling str.lower on the inputs of interest. -/
def strLower (s : String) : String := String.mk (s.data.map Char.toLower)

/-- Python whitespace characters stripped by str.strip. -/
def pySpace (c : Char) : Bool :=
  c = ' ' || c = '\t' || c = '\n' || c = '\r' || c = '\x0b' || c = '\x0c'

/-- Python str.strip: remove leading and trailing whitespace. -/
def pyStrip (s : String) : String :=
  String.mk (((s.data.dropWhile pySpace).reverse.dropWhile pySpace).reverse)

/-- Python endswith for the single character Z. -/
def endsZ (l : List Char) : Bool :=
  match l.getLast? with
  | some c => c = 'Z'
  | none => false

/-- Whether pat occurs as a contiguous segment of the list. -/
def hasSub (pat : List Char) : List Char → Bool
  | [] => pat.isEmpty
  | c :: t => pat.isPrefixOf (c :: t) || hasSub pat t

/-- Whether pat occurs as a substring of s. -/
def strContains (s pat : String) : Bool := hasSub pat.data s.data

/-! ### Datetime model

Python datetime values are modelled by an explicit record; the timezone
is the fixed UTC offset in minutes carried by a fromisoformat result
(none for a naive datetime). -/

structure PyDateTime where
  year : Nat
  month : Nat
  day : Nat
  hour : Nat
  minute : Nat
  second : Nat
  microsecond : Nat
  utcOffsetMinutes : Option Int
deriving DecidableEq

/-- Gregorian leap year rule, as datetime uses. -/
def isLeapYear (y : Nat) : Bool :=
  y % 4 == 0 && (y % 100 != 0 || y % 400 == 0)

/-- Number of days of a month. -/
def daysInMonth (y m : Nat) : Nat :=
  if m = 2 then (if isLeapYear y then 29 else 28)
  else if m == 4 || m == 6 || m == 9 || m == 11 then 30
  else 31

/-- Read exactly n decimal digit characters, accumulating their value. -/
def readDigitsAcc : Nat → Nat → List Char → Option (Nat × List Char)
  | acc, 0, l => some (acc, l)
  | _, _ + 1, [] => none
  | acc, n + 1, c :: t =>
    if c.isDigit then readDigitsAcc (10 * acc + charDigit c) n t else none

/-- Read exactly n decimal digit characters. -/
def readDigits (n : Nat) (l : List Char) : Option (Nat × List Char) :=
  readDigitsAcc 0 n l

/-- Consume one expected character. -/
def expectChar (a : Char) : List Char → Option (List Char)
  | [] => none
  | c :: t => if c = a then some t else none

/-- Read a fractional-seconds field of one to six digits, scaled to
microseconds. -/
def parseFrac (l : List Char) : Option (Nat × List Char) :=
  let digs := l.takeWhile Char.isDigit
  let rest := l.dropWhile Char.isDigit
  if digs.length = 0 ∨ 6 < digs.length then none
  else some (ofChars digs * 10 ^ (6 - digs.length), rest)

/-- Parse the time component HH[:MM[:SS[.ffffff]]] of an isoformat
string, returning hour, minute, second, microsecond and the rest. -/
def parseTime (l : List Char) : Option (Nat × Nat × Nat × Nat × List Char) := do
  let (h, l1) ← readDigits 2 l
  match l1 with
  | ':' :: l2 =>
    let (mi, l3) ← readDigits 2 l2
    match l3 with
    | ':' :: l4 =>
      let (s, l5) ← readDigits 2 l4
      match l5 with
      | '.' :: l6 =>
        let (us, l7) ← parseFrac l6
        pure (h, mi, s, us, l7)
      | _ => pure (h, mi, s, 0, l5)
    | _ => pure (h, mi, 0, 0, l3)
  | _ => pure (h, 0, 0, 0, l1)

/-- Parse an optional fixed utc offset of the form +HH:MM or -HH:MM. -/
def parseTz (l : List Char) : Option (Option Int × List Char) :=
  match l with
  | '+' :: t => do
    let (oh, t1) ← readDigits 2 t
    let t2 ← expectChar ':' t1
    let (om, t3) ← readDigits 2 t2
    if om ≤ 59 ∧ oh * 60 + om < 1440 then pure (some ((oh : Int) * 60 + om), t3)
    else none
  | '-' :: t => do
    let (oh, t1) ← readDigits 2 t
    let t2 ← expectChar ':' t1
    let (om, t3) ← readDigits 2 t2
    if om ≤ 59 ∧ oh * 60 + om < 1440 then pure (some (-((oh : Int) * 60 + om)), t3)
    else none
  | _ => pure (none, l)

/-- Range validation performed by the datetime constructor. -/
def mkDateTime (y mo d h mi s us : Nat) (tz : Option Int) : Option PyDateTime :=
  if 1 ≤ y ∧ 1 ≤ mo ∧ mo ≤ 12 ∧ 1 ≤ d ∧ d ≤ daysInMonth y mo ∧
      h ≤ 23 ∧ mi ≤ 59 ∧ s ≤ 59 then
    some ⟨y, mo, d, h, mi, s, us, tz⟩
  else none

/-- Parser for the extended isoformat accepted by
datetime.fromisoformat: YYYY-MM-DD, optionally followed by a one
character separator, a time HH[:MM[:SS[.f{1-6}]]] and an offset
+HH:MM or -HH:MM, with the datetime range checks applied. -/
def fromisoformatL (l : List Char) : Option PyDateTime := do
  let (y, l1) ← readDigits 4 l
  let l2 ← expectChar '-' l1
  let (mo, l3) ← readDigits 2 l2
  let l4 ← expectChar '-' l3
  let (d, l5) ← readDigits 2 l4
  match l5 with
  | [] => mkDateTime y mo d 0 0 0 0 none
  | _ :: l6 => do
    let (h, mi, s, us, l7) ← parseTime l6
    let (tz, l8) ← parseTz l7
    match l8 with
    | [] => mkDateTime y mo d h mi s us tz
    | _ => none

/-- Model of datetime.fromisoformat on strings. -/
def fromisoformat (s : String) : Option PyDateTime := fromisoformatL s.data

/-- Full month name, strftime directive B. -/
def monthName : Nat → String
  | 1 => "January"
  | 2 => "February"
  | 3 => "March"
  | 4 => "April"
  | 5 => "May"
  | 6 => "June"
  | 7 => "July"
  | 8 => "August"
  | 9 => "September"
  | 10 => "October"
  | 11 => "November"
  | 12 => "December"
  | _ => ""

/-- Timezone name, strftime directive Z: empty for a naive datetime,
UTC for the zero offset, UTC+HH:MM or UTC-HH:MM otherwise. -/
def tzName : Option Int → String
  | none => ""
  | some off =>
    if off = 0 then "UTC"
    else "UTC" ++ (if off < 0 then "-" else "+") ++
      pad2 (off.natAbs / 60) ++ ":" ++ pad2 (off.natAbs % 60)

/-- The report date format of the source, strftime with
the directives B d, Y at I:M:S p Z. -/
def strftimeLong (dt : PyDateTime) : String :=
  monthName dt.month ++ " " ++ pad2 dt.day ++ ", " ++ natStr dt.year ++ " at " ++
    pad2 (if dt.hour % 12 = 0 then 12 else dt.hour % 12) ++ ":" ++
    pad2 dt.minute ++ ":" ++ pad2 dt.second ++ " " ++
    (if dt.hour < 12 then "AM" else "PM") ++ " " ++ tzName dt.utcOffsetMinutes

/-- The CoinGecko history date format of the source, strftime with the
directives d-m-Y. -/
def fmtDMY (dt : PyDateTime) : String :=
  pad2 dt.day ++ "-" ++ pad2 dt.month ++ "-" ++ natStr dt.year

/-! ### Embedding of the source functions -/

/-- Embedding of format_datetime: empty or missing input renders N/A;
a trailing Z is first rewritten to the +00:00 offset (mutating the
local variable); on a parse failure the mutated string is returned. -/
def format_datetime : Option String → String
  | none => "N/A"
  | some s =>
    if s = "" then "N/A"
    else
      let s1 := if endsZ s.data then String.mk s.data.dropLast ++ "+00:00" else s
      match fromisoformat (strReplaceChar 'Z' "+00:00" s1) with
      | some dt => strftimeLong dt
      | none => s1

/-- The fields of the contract-lookup JSON response the source reads.
A field that is absent, or present with a null value, is none; an
absent market_data object is modelled by ath_usd and ath_date none. -/
structure TokenResponse where
  name : Option String
  symbol : Option String
  genesis_date : Option String
  id : Option String
  ath_usd : Option ℚ
  ath_date : Option String
deriving DecidableEq

/-- The dictionary returned by get_token_data on success. -/
structure TokenRecord where
  name : String
  symbol : String
  ath_usd : ℚ
  ath_date : String
  genesis_date : String
  contract_address : String
  coin_id : Option String
deriving DecidableEq

/-- Outcome of one HTTP GET as the requests library reports it:
a parsed 2xx body, an HTTP error status with the response text, or a
connection, timeout or other request failure. -/
inductive HttpResult (α : Type) where
  | success : α → HttpResult α
  | httpError : Nat → String → HttpResult α
  | connectionError : HttpResult α
  | timeoutError : HttpResult α
  | requestError : HttpResult α

/-- The distinct error branches of get_token_data; in the source each
prints a distinct message and returns None. -/
inductive TokenError where
  | notFound
  | httpError (status : Nat) (body : String)
  | connectionError
  | timeoutError
  | requestError
  | missingAth (name symbol : String)
deriving DecidableEq

/-- Embedding of get_token_data, applied to the response of the
contract-lookup endpoint for the given address. -/
def get_token_data (contract_address : String) (resp : HttpResult TokenResponse) :
    Except TokenError TokenRecord :=
  match resp with
  | .success data =>
    let name := data.name.getD "N/A"
    let symbol := data.symbol.getD "N/A"
    match data.ath_usd with
    | none => .error (.missingAth name symbol)
    | some ath =>
      .ok { name := name
            symbol := if symbol = "" then "N/A" else strUpper symbol
            ath_usd := ath
            ath_date := format_datetime data.ath_date
            genesis_date := format_datetime data.genesis_date
            contract_address := contract_address
            coin_id := data.id }
  | .httpError status body =>
    if status = 404 then .error .notFound else .error (.httpError status body)
  | .connectionError => .error .connectionError
  | .timeoutError => .error .timeoutError
  | .requestError => .error .requestError

/-- The field of the history JSON response the source reads,
market_data.current_price.usd; any absent object along the chain is
modelled by none. -/
structure HistoryResponse where
  price_usd : Option ℚ
deriving DecidableEq

/-- The distinct error branches of get_historical_price. -/
inductive HistError where
  | invalidDate
  | notFound
  | httpError (status : Nat) (body : String)
  | connectionError
  | timeoutError
  | requestError
deriving DecidableEq

/-- The per-coin history URL built by get_historical_price. -/
def histURL (coin_id : String) (dt : PyDateTime) : String :=
  "https://api.coingecko.com/api/v3/coins/" ++ coin_id ++ "/history?date=" ++ fmtDMY dt

/-- Embedding of get_historical_price. The oracle maps a URL to the
HTTP outcome; the second component is the trace of issued requests. -/
def get_historical_price (coin_id : String) (date_str : String)
    (oracle : String → HttpResult HistoryResponse) :
    Except HistError ℚ × List String :=
  match fromisoformat (strReplaceChar 'Z' "+00:00" date_str) with
  | none => (.error .invalidDate, [])
  | some dt =>
    ((match oracle (histURL coin_id dt) with
      | .success data =>
        match data.price_usd with
        | none => .error .notFound
        | some p => .ok p
      | .httpError s b => .error (.httpError s b)
      | .connectionError => .error .connectionError
      | .timeoutError => .error .timeoutError
      | .requestError => .error .requestError),
     [histURL coin_id dt])

/-- Embedding of calculate_return_percentage. -/
def calculate_return_percentage (ath_price historical_price : ℚ) : Option ℚ :=
  if historical_price = 0 then none
  else some ((ath_price / historical_price - 1) * 100)

/-- Rounding to the nearest integer, as the fixed-point formatting
rounds to nearest. -/
def roundQ (q : ℚ) : ℤ := ⌊q + 1 / 2⌋

/-- Fixed-point decimal formatting of a rational with the given number
of decimal places, modelling the Python format specifier .8f and .2f
(round to nearest, zero padded fraction). -/
def formatFixed (q : ℚ) (decs : Nat) : String :=
  let scaled : ℤ := roundQ (q * 10 ^ decs)
  let n : Nat := scaled.natAbs
  let ipart := n / 10 ^ decs
  let fpart := n % 10 ^ decs
  let fchars := List.replicate (decs - (natChars fpart).length) '0' ++ natChars fpart
  String.mk ((if scaled < 0 then ['-'] else []) ++ natChars ipart ++ '.' :: fchars)

/-- Parse an unsigned decimal numeral with an optional fractional
part. -/
def parseUnsigned (l : List Char) : Option ℚ :=
  if (l.takeWhile Char.isDigit).isEmpty then none
  else
    match l.dropWhile Char.isDigit with
    | [] => some ((ofChars (l.takeWhile Char.isDigit) : ℚ))
    | c :: fr =>
      if c = '.' then
        if fr.isEmpty = false ∧ fr.all Char.isDigit then
          some ((ofChars (l.takeWhile Char.isDigit) : ℚ) + (ofChars fr : ℚ) / 10 ^ fr.length)
        else none
      else none

/-- Parse a decimal numeral with an optional sign, the natural inverse
of the displayed fixed-point price format. -/
def parseFixed (s : String) : Option ℚ :=
  match s.data with
  | [] => none
  | c :: t =>
    if c = '-' then (parseUnsigned t).map (fun q => -q)
    else parseUnsigned (c :: t)

/-- Embedding of the panel content string built by display_results for
a successfully fetched token record. -/
def display_results_content (td : TokenRecord) (historical_price : Option ℚ)
    (return_percentage : Option ℚ) (input_date : Option String) : String :=
  let base :=
    "[bold]Name:[/bold] " ++ td.name ++
    "\n[bold]Symbol:[/bold] " ++ td.symbol ++
    "\n[bold]Contract Address:[/bold] [cyan]" ++ td.contract_address ++
    "[/cyan]\n--------------------\n[bold]ATH Price (USD):[/bold] [green]$" ++
    formatFixed td.ath_usd 8 ++
    "[/green]\n[bold]ATH Date:[/bold] " ++ td.ath_date ++
    "\n--------------------\n[bold]CoinGecko Listing Date:[/bold] " ++
    td.genesis_date ++ " [italic](Note: Not blockchain creation date)[/italic]"
  match historical_price, input_date with
  | some p, some d =>
    if d = "" then base
    else
      let withHist := base ++ "\n--------------------\n[bold]Historical Price (USD) on " ++
        d ++ ":[/bold] [green]$" ++ formatFixed p 8 ++ "[/green]"
      match return_percentage with
      | some r =>
        withHist ++ "\n[bold]Return from " ++ d ++ " to ATH:[/bold] [green]" ++
          formatFixed r 2 ++ "%[/green]"
      | none => withHist
  | _, _ => base

/-- The contract-lookup URL built by get_token_data. -/
def contractURL (addr : String) : String :=
  "https://api.coingecko.com/api/v3/coins/solana/contract/" ++ addr

/-- Observable outcome of one run of the script: the process exit
code, the trace of issued HTTP requests, and whether the
historical-date prompt was shown. -/
structure MainResult where
  exitCode : Nat
  requests : List String
  histPromptShown : Bool
deriving DecidableEq

/-- Embedding of the main block: address-length validation with exit
code 1, strip and lowercase, the contract lookup, the optional
historical-date prompt with its isoformat validation, and the history
lookup. Every flow other than the invalid address exits with code 0. -/
def mainFlow (contract_address : String) (date_input : String)
    (tokenResp : HttpResult TokenResponse)
    (histOracle : String → HttpResult HistoryResponse) : MainResult :=
  if contract_address = "" ∨ contract_address.length < 32 ∨ 45 < contract_address.length then
    { exitCode := 1, requests := [], histPromptShown := false }
  else
    let addr := strLower (pyStrip contract_address)
    match get_token_data addr tokenResp with
    | .error _ => { exitCode := 0, requests := [contractURL addr], histPromptShown := false }
    | .ok td =>
      match fromisoformat (strReplaceChar ' ' "T" date_input) with
      | none => { exitCode := 0, requests := [contractURL addr], histPromptShown := true }
      | some _ =>
        let cid := match td.coin_id with | none => "None" | some s => s
        let hist := get_historical_price cid date_input histOracle
        { exitCode := 0, requests := contractURL addr :: hist.2, histPromptShown := true }

/-! ### Lemmas about the decimal rendering helpers -/

theorem charDigit_digitChar : ∀ d : Nat, d < 10 → charDigit (digitChar d) = d := by decide

theorem digitChar_isDigit : ∀ d : Nat, d < 10 → (digitChar d).isDigit = true := by decide

theorem toDigitsAux_lt10 : ∀ fuel n d, d ∈ toDigitsAux fuel n → d < 10 := by
  intro fuel
  induction fuel with
  | zero => intro n d h; simp [toDigitsAux] at h
  | succ fuel ih =>
    intro n d h
    by_cases hn : n = 0
    · simp [toDigitsAux, hn] at h
    · simp only [toDigitsAux, hn, if_false, List.mem_cons] at h
      rcases h with h | h
      · subst h; omega
      · exact ih _ _ h

theorem ofDigitsLE_toDigitsAux : ∀ fuel n, n ≤ fuel → ofDigitsLE (toDigitsAux fuel n) = n := by
  intro fuel
  induction fuel with
  | zero =>
    intro n h
    have : n = 0 := by omega
    simp [this, toDigitsAux, ofDigitsLE]
  | succ fuel ih =>
    intro n h
    by_cases hn : n = 0
    · simp [toDigitsAux, hn, ofDigitsLE]
    · have hdiv : n / 10 < n := Nat.div_lt_self (Nat.pos_of_ne_zero hn) (by norm_num)
      have hf : n / 10 ≤ fuel := by omega
      simp only [toDigitsAux, hn, if_false, ofDigitsLE, ih _ hf]
      omega

theorem toDigitsAux_length : ∀ fuel k n, n < 10 ^ k → (toDigitsAux fuel n).length ≤ k := by
  intro fuel
  induction fuel with
  | zero => intro k n _; simp [toDigitsAux]
  | succ fuel ih =>
    intro k n h
    by_cases hn : n = 0
    · simp [toDigitsAux, hn]
    · have hk : k ≠ 0 := by
        intro hk0
        rw [hk0, pow_zero] at h
        omega
      obtain ⟨k2, rfl⟩ : ∃ k2, k = k2 + 1 := ⟨k - 1, by omega⟩
      have hlt : n / 10 < 10 ^ k2 := by
        rw [Nat.div_lt_iff_lt_mul (by norm_num)]
        calc n < 10 ^ (k2 + 1) := h
          _ = 10 ^ k2 * 10 := by ring
      have := ih k2 (n / 10) hlt
      simp only [toDigitsAux, hn, if_false, List.length_cons]
      omega

theorem natChars_ne_nil (n : Nat) : natChars n ≠ [] := by
  unfold natChars
  by_cases hn : n = 0
  · simp [hn]
  · simp only [hn, if_false]
    obtain ⟨m, rfl⟩ : ∃ m, n = m + 1 := ⟨n - 1, by omega⟩
    simp [toDigitsAux]

theorem mem_natChars_isDigit (n : Nat) : ∀ c ∈ natChars n, c.isDigit = true := by
  intro c hc
  by_cases hn : n = 0
  · rw [natChars] at hc
    simp [hn] at hc
    subst hc
    decide
  · rw [natChars] at hc
    simp only [hn, if_false, List.mem_map, List.mem_reverse] at hc
    obtain ⟨d, hd, rfl⟩ := hc
    exact digitChar_isDigit d (toDigitsAux_lt10 _ _ _ hd)

theorem ofChars_rev_map (l : List Nat) (hl : ∀ d ∈ l, d < 10) :
    ofChars (l.reverse.map digitChar) = ofDigitsLE l := by
  induction l with
  | nil => rfl
  | cons d t ih =>
    have hd : d < 10 := hl d (by simp)
    have ht : ∀ x ∈ t, x < 10 := fun x hx => hl x (by simp [hx])
    have hstep : ofChars (t.reverse.map digitChar ++ [digitChar d]) =
        10 * ofChars (t.reverse.map digitChar) + charDigit (digitChar d) := by
      simp [ofChars, List.foldl_append]
    rw [List.reverse_cons, List.map_append]
    simp only [List.map_cons, List.map_nil]
    rw [hstep, ih ht, charDigit_digitChar d hd]
    simp only [ofDigitsLE]
    omega

theorem ofChars_natChars (n : Nat) : ofChars (natChars n) = n := by
  unfold natChars
  by_cases hn : n = 0
  · simp [hn, ofChars, charDigit]
  · simp only [hn, if_false]
    rw [ofChars_rev_map _ (fun d hd => toDigitsAux_lt10 _ _ _ hd)]
    exact ofDigitsLE_toDigitsAux n n le_rfl

theorem natChars_length_le (n k : Nat) (hk : 0 < k) (hn : n < 10 ^ k) :
    (natChars n).length ≤ k := by
  unfold natChars
  by_cases h0 : n = 0
  · simp [h0]; omega
  · simp only [h0, if_false, List.length_map, List.length_reverse]
    exact toDigitsAux_length n k n hn

theorem ofChars_replicate_zero (k : Nat) (l : List Char) :
    ofChars (List.replicate k '0' ++ l) = ofChars l := by
  induction k with
  | zero => rfl
  | succ k ih =>
    rw [List.replicate_succ, List.cons_append]
    exact ih

theorem takeWhile_digits_append (p : Char → Bool) :
    ∀ (a : List Char) (b : Char) (t : List Char), (∀ c ∈ a, p c = true) → p b = false →
      (a ++ b :: t).takeWhile p = a ∧ (a ++ b :: t).dropWhile p = b :: t := by
  intro a
  induction a with
  | nil =>
    intro b t _ hb
    simp [List.takeWhile_cons, List.dropWhile_cons, hb]
  | cons c a ih =>
    intro b t ha hb
    have hc : p c = true := ha c (by simp)
    have ht : ∀ x ∈ a, p x = true := fun x hx => ha x (by simp [hx])
    obtain ⟨h1, h2⟩ := ih b t ht hb
    simp [List.takeWhile_cons, List.dropWhile_cons, hc, h1, h2]

theorem parseUnsigned_format (ipart fpart decs : Nat) (hd : 0 < decs) (hf : fpart < 10 ^ decs) :
    parseUnsigned (natChars ipart ++ '.' ::
        (List.replicate (decs - (natChars fpart).length) '0' ++ natChars fpart)) =
      some ((ipart : ℚ) + (fpart : ℚ) / 10 ^ decs) := by
  set fr := List.replicate (decs - (natChars fpart).length) '0' ++ natChars fpart with hfr
  have hdot : ('.' : Char).isDigit = false := by decide
  obtain ⟨htake, hdrop⟩ := takeWhile_digits_append Char.isDigit (natChars ipart) '.' fr
      (mem_natChars_isDigit ipart) hdot
  have hipne : (natChars ipart).isEmpty = false := by
    cases hx : natChars ipart with
    | nil => exact absurd hx (natChars_ne_nil _)
    | cons a b => simp
  have hfrne : fr.isEmpty = false := by
    rw [hfr]
    cases hx : natChars fpart with
    | nil => exact absurd hx (natChars_ne_nil _)
    | cons a b => simp
  have hfrdig : fr.all Char.isDigit = true := by
    rw [List.all_eq_true]
    intro c hc
    rw [hfr, List.mem_append] at hc
    rcases hc with hc | hc
    · have : c = '0' := List.eq_of_mem_replicate hc
      subst this
      decide
    · exact mem_natChars_isDigit _ c hc
  have hlen : fr.length = decs := by
    have h1 : (natChars fpart).length ≤ decs := natChars_length_le fpart decs hd hf
    rw [hfr]
    simp only [List.length_append, List.length_replicate]
    omega
  have hfrval : ofChars fr = fpart := by
    rw [hfr, ofChars_replicate_zero, ofChars_natChars]
  unfold parseUnsigned
  rw [htake, hdrop, hipne]
  simp only [Bool.false_eq_true, if_false, if_pos rfl, hfrne, hfrdig,
    ofChars_natChars, hfrval, hlen, and_self, if_true]

theorem parseFixed_formatFixed (q : ℚ) (decs : Nat) (hd : 0 < decs) :
    parseFixed (formatFixed q decs) = some ((roundQ (q * 10 ^ decs) : ℚ) / 10 ^ decs) := by
  unfold formatFixed parseFixed
  dsimp only
  set z := roundQ (q * 10 ^ decs) with hz
  set n := z.natAbs with hn
  have hpow : (0 : Nat) < 10 ^ decs := by positivity
  have hfp : n % 10 ^ decs < 10 ^ decs := Nat.mod_lt _ hpow
  have hmain := parseUnsigned_format (n / 10 ^ decs) (n % 10 ^ decs) decs hd hfp
  have h10 : ((10 : ℚ) ^ decs) ≠ 0 := by positivity
  have hsplit : ((n : ℚ)) = ((n / 10 ^ decs : Nat) : ℚ) * 10 ^ decs + ((n % 10 ^ decs : Nat) : ℚ) := by
    exact_mod_cast (Nat.div_add_mod' n (10 ^ decs)).symm
  have hval : ((n / 10 ^ decs : Nat) : ℚ) + ((n % 10 ^ decs : Nat) : ℚ) / 10 ^ decs
      = (n : ℚ) / 10 ^ decs := by
    rw [hsplit, add_div, mul_div_assoc, div_self h10, mul_one]
  obtain ⟨c0, rest0, hcons⟩ : ∃ c0 rest0, natChars (n / 10 ^ decs) = c0 :: rest0 := by
    cases hx : natChars (n / 10 ^ decs) with
    | nil => exact absurd hx (natChars_ne_nil _)
    | cons a b => exact ⟨a, b, rfl⟩
  have hc0 : c0.isDigit = true :=
    mem_natChars_isDigit _ c0 (by rw [hcons]; exact List.mem_cons_self _ _)
  have hc0ne : ¬ c0 = '-' := by
    intro h
    rw [h] at hc0
    exact absurd hc0 (by decide)
  by_cases hneg : z < 0
  · have hzn : (n : ℤ) = -z := by omega
    have hznq : ((n : ℚ)) = -(z : ℚ) := by exact_mod_cast hzn
    rw [if_pos hneg]
    simp only [List.cons_append, List.nil_append]
    rw [if_true, hmain, hval]
    rw [hznq]
    simp only [Option.map_some']
    congr 1
    ring
  · have hzn : (n : ℤ) = z := by omega
    have hznq : ((n : ℚ)) = (z : ℚ) := by exact_mod_cast hzn
    rw [if_neg hneg]
    simp only [List.nil_append]
    rw [hcons]
    simp only [List.cons_append]
    rw [if_neg hc0ne, ← List.cons_append, ← hcons, hmain, hval, hznq]

theorem hasSub_append_right (pat : List Char) :
    ∀ (a b : List Char), hasSub pat b = true → hasSub pat (a ++ b) = true := by
  intro a
  induction a with
  | nil => intro b h; exact h
  | cons c a ih =>
    intro b h
    simp only [List.cons_append, hasSub, List.append_eq]
    rw [ih b h]
    simp

/-- Helper: behavior of get_token_data on a 2xx response whose ath
price is present. -/
theorem get_token_data_success (addr : String) (r : TokenResponse) (p : ℚ)
    (hp : r.ath_usd = some p) :
    get_token_data addr (.success r) =
      .ok { name := r.name.getD "N/A"
            symbol := if r.symbol.getD "N/A" = "" then "N/A" else strUpper (r.symbol.getD "N/A")
            ath_usd := p
            ath_date := format_datetime r.ath_date
            genesis_date := format_datetime r.genesis_date
            contract_address := addr
            coin_id := r.id } := by
  simp only [get_token_data, hp]

/-! ### The claims -/

/-- Claim C1: calculate_return_percentage returns ((ath / hist) - 1) * 100
whenever the historical price is nonzero, fails (returns none, the
division-by-zero branch) exactly when the historical price is zero, and
in particular maps ath 2.5 and hist 0.5 to 400. -/
theorem claim1_computeReturn :
    (∀ a h : ℚ, h ≠ 0 → calculate_return_percentage a h = some ((a / h - 1) * 100)) ∧
    (∀ a : ℚ, calculate_return_percentage a 0 = none) ∧
    calculate_return_percentage 2.5 0.5 = some 400 := by
  refine ⟨fun a h hh => ?_, fun a => ?_, ?_⟩
  · rw [calculate_return_percentage, if_neg hh]
  · rw [calculate_return_percentage, if_pos rfl]
  · have hv : ((2.5 : ℚ) / 0.5 - 1) * 100 = 400 := by norm_num
    rw [calculate_return_percentage, if_neg (by norm_num : ¬ (0.5 : ℚ) = 0), hv]

/-- Witness for C1 at the concrete input of the claim. -/
theorem claim1_computeReturn_witness :
    calculate_return_percentage 2.5 0.5 = some ((2.5 / 0.5 - 1) * 100) :=
  claim1_computeReturn.1 2.5 0.5 (by norm_num)

/-- Claim C2: an address shorter than 32 characters, longer than 45
characters or empty makes the program exit with code 1 before issuing
any network request; every other flow exits with code 0. -/
theorem claim2_addressValidation (a d : String) (tr : HttpResult TokenResponse)
    (ho : String → HttpResult HistoryResponse) :
    ((a.length < 32 ∨ 45 < a.length ∨ a = "") →
      mainFlow a d tr ho = { exitCode := 1, requests := [], histPromptShown := false }) ∧
    (32 ≤ a.length → a.length ≤ 45 → (mainFlow a d tr ho).exitCode = 0) := by
  constructor
  · intro h
    rw [mainFlow, if_pos (by tauto)]
  · intro h1 h2
    have h0 : ("" : String).length = 0 := rfl
    have hne : ¬ (a = "" ∨ a.length < 32 ∨ 45 < a.length) := by
      push_neg
      refine ⟨fun he => ?_, by omega, by omega⟩
      rw [he] at h1
      omega
    rw [mainFlow, if_neg hne]
    dsimp only
    cases hgt : get_token_data (strLower (pyStrip a)) tr with
    | error e => rfl
    | ok td =>
      cases hdt : fromisoformat (strReplaceChar ' ' "T" d) with
      | none => rfl
      | some v => rfl

/-- Witness for C2: a short address exits 1 with no request; a 40
character address with a failing lookup exits 0. -/
theorem claim2_addressValidation_witness :
    mainFlow "short" "2023-01-01 00:00:00" (.httpError 500 "err") (fun _ => .timeoutError) =
      { exitCode := 1, requests := [], histPromptShown := false } ∧
    (mainFlow "abcdefghabcdefghabcdefghabcdefghabcdefgh" "2023-01-01 00:00:00"
      (.httpError 500 "err") (fun _ => .timeoutError)).exitCode = 0 :=
  ⟨(claim2_addressValidation "short" "2023-01-01 00:00:00" (.httpError 500 "err")
      (fun _ => .timeoutError)).1 (Or.inl (by decide)),
   (claim2_addressValidation "abcdefghabcdefghabcdefghabcdefghabcdefgh" "2023-01-01 00:00:00"
      (.httpError 500 "err") (fun _ => .timeoutError)).2 (by decide) (by decide)⟩

/-- Response with the ath price present but the ath timestamp absent. -/
def respNoAthDate : TokenResponse :=
  { name := some "Tok", symbol := some "tok", genesis_date := none,
    id := some "tok-id", ath_usd := some (5 / 2), ath_date := none }

/-- Counterexample to C3 as stated: with the all-time-high timestamp
absent from the response (and the price present), get_token_data does
not fail with MissingData; it succeeds, rendering the missing
timestamp as N/A. -/
theorem claim3_counterexample :
    get_token_data "addr" (.success respNoAthDate) =
      .ok { name := "Tok", symbol := "TOK", ath_usd := 5 / 2, ath_date := "N/A",
            genesis_date := "N/A", contract_address := "addr", coin_id := some "tok-id" } := by
  rfl

/-- Claim C3 amended: get_token_data fails with MissingData exactly
when the all-time-high price is absent; an absent all-time-high
timestamp does not cause failure (it renders as N/A); on success it
extracts name, symbol (uppercased), the ath price, the formatted ath
timestamp, and the listing-date field, which may be absent. -/
theorem claim3_tokenExtraction (addr : String) (r : TokenResponse) :
    (r.ath_usd = none →
      get_token_data addr (.success r) =
        .error (.missingAth (r.name.getD "N/A") (r.symbol.getD "N/A"))) ∧
    (∀ p, r.ath_usd = some p →
      get_token_data addr (.success r) =
        .ok { name := r.name.getD "N/A"
              symbol := if r.symbol.getD "N/A" = "" then "N/A" else strUpper (r.symbol.getD "N/A")
              ath_usd := p
              ath_date := format_datetime r.ath_date
              genesis_date := format_datetime r.genesis_date
              contract_address := addr
              coin_id := r.id }) := by
  constructor
  · intro h
    simp only [get_token_data, h]
  · intro p hp
    exact get_token_data_success addr r p hp

/-- Response with every field absent. -/
def respAllAbsent : TokenResponse :=
  { name := none, symbol := none, genesis_date := none, id := none,
    ath_usd := none, ath_date := none }

/-- Witness for C3 amended: both branches at concrete responses. -/
theorem claim3_tokenExtraction_witness :
    get_token_data "addr" (.success respAllAbsent) =
      .error (.missingAth "N/A" "N/A") ∧
    get_token_data "addr" (.success respNoAthDate) =
      .ok { name := "Tok", symbol := "TOK", ath_usd := 5 / 2, ath_date := "N/A",
            genesis_date := "N/A", contract_address := "addr", coin_id := some "tok-id" } :=
  ⟨(claim3_tokenExtraction "addr" _).1 rfl,
   (claim3_tokenExtraction "addr" respNoAthDate).2 (5 / 2) rfl⟩

/-- Claim C4: get_historical_price fails with InvalidDate, issuing no
request, when the input timestamp cannot be parsed; when it parses, the
single request formats the date as day-month-year; on a 2xx response it
yields NotFound when the usd price field is absent, and the usd price
otherwise. -/
theorem claim4_historicalPrice (cid ds : String) (ho : String → HttpResult HistoryResponse) :
    (fromisoformat (strReplaceChar 'Z' "+00:00" ds) = none →
      get_historical_price cid ds ho = (.error .invalidDate, [])) ∧
    (∀ dt, fromisoformat (strReplaceChar 'Z' "+00:00" ds) = some dt →
      (get_historical_price cid ds ho).2 =
        ["https://api.coingecko.com/api/v3/coins/" ++ cid ++ "/history?date=" ++
          (pad2 dt.day ++ "-" ++ pad2 dt.month ++ "-" ++ natStr dt.year)] ∧
      (∀ resp, ho (histURL cid dt) = .success resp →
        (resp.price_usd = none → (get_historical_price cid ds ho).1 = .error .notFound) ∧
        (∀ p, resp.price_usd = some p → (get_historical_price cid ds ho).1 = .ok p))) := by
  constructor
  · intro h
    unfold get_historical_price
    rw [h]
  · intro dt hdt
    constructor
    · unfold get_historical_price
      rw [hdt]
      rfl
    · intro resp hresp
      obtain ⟨pu⟩ := resp
      constructor
      · intro hp
        dsimp only at hp
        subst hp
        unfold get_historical_price
        rw [hdt]
        dsimp only
        rw [hresp]
      · intro p hp
        dsimp only at hp
        subst hp
        unfold get_historical_price
        rw [hdt]
        dsimp only
        rw [hresp]

/-- Witness for C4: the unparseable date issues no request; a parseable
one issues a day-month-year request, with both response shapes. -/
theorem claim4_historicalPrice_witness :
    get_historical_price "tok" "garbage" (fun _ => .success ⟨some 2⟩) =
      (.error .invalidDate, []) ∧
    (get_historical_price "tok" "2023-01-01 00:00:00" (fun _ => .success ⟨some 2⟩)).2 =
      ["https://api.coingecko.com/api/v3/coins/tok/history?date=01-01-2023"] ∧
    (get_historical_price "tok" "2023-01-01 00:00:00" (fun _ => .success ⟨none⟩)).1 =
      .error .notFound ∧
    (get_historical_price "tok" "2023-01-01 00:00:00" (fun _ => .success ⟨some 2⟩)).1 =
      .ok 2 :=
  ⟨(claim4_historicalPrice "tok" "garbage" (fun _ => .success ⟨some 2⟩)).1 rfl,
   ((claim4_historicalPrice "tok" "2023-01-01 00:00:00" (fun _ => .success ⟨some 2⟩)).2
      ⟨2023, 1, 1, 0, 0, 0, 0, none⟩ rfl).1,
   (((claim4_historicalPrice "tok" "2023-01-01 00:00:00" (fun _ => .success ⟨none⟩)).2
      ⟨2023, 1, 1, 0, 0, 0, 0, none⟩ rfl).2 ⟨none⟩ rfl).1 rfl,
   (((claim4_historicalPrice "tok" "2023-01-01 00:00:00" (fun _ => .success ⟨some 2⟩)).2
      ⟨2023, 1, 1, 0, 0, 0, 0, none⟩ rfl).2 ⟨some 2⟩ rfl).2 2 rfl⟩

/-- Claim C5: a 404 on the contract lookup yields NotFound, after which
the main flow shows no historical prompt and issues no historical
request; a non-404 HTTP error yields the network error carrying the
status and the body. -/
theorem claim5_notFound (addr body a d : String) (s : Nat) (b : String)
    (ho : String → HttpResult HistoryResponse) :
    get_token_data addr (.httpError 404 body) = .error .notFound ∧
    (400 ≤ s → ¬ s = 404 → get_token_data addr (.httpError s b) = .error (.httpError s b)) ∧
    (32 ≤ a.length → a.length ≤ 45 →
      mainFlow a d (.httpError 404 body) ho =
        { exitCode := 0, requests := [contractURL (strLower (pyStrip a))],
          histPromptShown := false }) := by
  refine ⟨rfl, fun _ hs => ?_, fun h1 h2 => ?_⟩
  · show (if s = 404 then (Except.error TokenError.notFound : Except TokenError TokenRecord)
        else .error (.httpError s b)) = .error (.httpError s b)
    rw [if_neg hs]
  · have h0 : ("" : String).length = 0 := rfl
    have hne : ¬ (a = "" ∨ a.length < 32 ∨ 45 < a.length) := by
      push_neg
      refine ⟨fun he => ?_, by omega, by omega⟩
      rw [he] at h1
      omega
    rw [mainFlow, if_neg hne]
    rfl

/-- Witness for C5 at a valid-length address and concrete errors. -/
theorem claim5_notFound_witness :
    get_token_data "addr" (.httpError 500 "oops") = .error (.httpError 500 "oops") ∧
    mainFlow "abcdefghabcdefghabcdefghabcdefghabcdefgh" "2023-01-01 00:00:00"
        (.httpError 404 "nf") (fun _ => .timeoutError) =
      { exitCode := 0,
        requests := [contractURL "abcdefghabcdefghabcdefghabcdefghabcdefgh"],
        histPromptShown := false } :=
  ⟨(claim5_notFound "addr" "nf" "a" "d" 500 "oops" (fun _ => .timeoutError)).2.1
      (by decide) (by decide),
   (claim5_notFound "x" "nf" "abcdefghabcdefghabcdefghabcdefghabcdefgh"
      "2023-01-01 00:00:00" 500 "b" (fun _ => .timeoutError)).2.2 (by decide) (by decide)⟩

/-- Mocked contract-lookup response of the spec test property. -/
def respMock : TokenResponse :=
  { name := some "MockCoin", symbol := some "mock", genesis_date := none,
    id := some "mockcoin", ath_usd := some (5 / 2), ath_date := some "2021-11-04T00:00:00.000Z" }

/-- The token record produced from respMock. -/
def recMock : TokenRecord :=
  { name := "MockCoin", symbol := "MOCK", ath_usd := 5 / 2,
    ath_date := "November 04, 2021 at 12:00:00 AM UTC", genesis_date := "N/A",
    contract_address := "mockaddr", coin_id := some "mockcoin" }

set_option maxRecDepth 100000 in
/-- Claim C6: with ath price 2.5 and ath date 2021-11-04T00:00:00.000Z
the report text contains the price rendered to 8 decimal places as
2.50000000 after a dollar sign, and the ath date rendered as
November 04, 2021 at 12:00:00 AM UTC. -/
theorem claim6_athRendering :
    get_token_data "mockaddr" (.success respMock) = .ok recMock ∧
    recMock.ath_date = "November 04, 2021 at 12:00:00 AM UTC" ∧
    strContains (display_results_content recMock none none none) "$2.50000000" = true ∧
    strContains (display_results_content recMock none none none)
      "November 04, 2021 at 12:00:00 AM UTC" = true := by
  have hscaled : roundQ ((5 : ℚ) / 2 * 10 ^ 8) = 250000000 := by
    unfold roundQ
    rw [Int.floor_eq_iff]
    constructor <;> norm_num
  have hff : formatFixed ((5 : ℚ) / 2) 8 = "2.50000000" := by
    unfold formatFixed
    dsimp only
    rw [hscaled]
    decide
  have hcontent : display_results_content recMock none none none =
      "[bold]Name:[/bold] MockCoin\n[bold]Symbol:[/bold] MOCK\n[bold]Contract Address:[/bold] [cyan]mockaddr[/cyan]\n--------------------\n[bold]ATH Price (USD):[/bold] [green]$2.50000000[/green]\n[bold]ATH Date:[/bold] November 04, 2021 at 12:00:00 AM UTC\n--------------------\n[bold]CoinGecko Listing Date:[/bold] N/A [italic](Note: Not blockchain creation date)[/italic]" := by
    unfold display_results_content
    dsimp only
    rw [show recMock.ath_usd = (5 : ℚ) / 2 from rfl, hff]
    decide
  refine ⟨rfl, rfl, ?_, ?_⟩
  · rw [hcontent]
    decide
  · rw [hcontent]
    decide

/-- Claim C7: formatting a price to 8 decimal places and re-parsing the
displayed string recovers the value rounded to 8 decimal places, which
is within half of 10 to the minus 8 of the original value. -/
theorem claim7_priceRoundTrip (q : ℚ) :
    parseFixed (formatFixed q 8) = some ((roundQ (q * 10 ^ 8) : ℚ) / 10 ^ 8) ∧
    |((roundQ (q * 10 ^ 8) : ℚ) / 10 ^ 8) - q| ≤ 1 / (2 * 10 ^ 8) := by
  constructor
  · exact parseFixed_formatFixed q 8 (by norm_num)
  · have h1 : ((roundQ (q * 10 ^ 8) : ℤ) : ℚ) ≤ q * 10 ^ 8 + 1 / 2 := by
      unfold roundQ
      exact Int.floor_le _
    have h2 : q * 10 ^ 8 + 1 / 2 < ((roundQ (q * 10 ^ 8) : ℤ) : ℚ) + 1 := by
      unfold roundQ
      exact Int.lt_floor_add_one _
    have e1 : ((10 : ℚ) ^ 8) = 100000000 := by norm_num
    rw [abs_le]
    rw [e1] at h1 h2 ⊢
    constructor <;> linarith

/-- Claim C8: when the genesis_date field is absent from the response,
fetching succeeds (provided the ath price is present, the only other
failure source), the listing date renders as N/A, and the report text
contains the listing-date line with N/A. -/
theorem claim8_genesisAbsent (addr : String) (r : TokenResponse) (p : ℚ)
    (hg : r.genesis_date = none) (hp : r.ath_usd = some p) :
    ∃ td, get_token_data addr (.success r) = .ok td ∧ td.genesis_date = "N/A" ∧
      strContains (display_results_content td none none none)
        "CoinGecko Listing Date:[/bold] N/A" = true := by
  refine ⟨_, get_token_data_success addr r p hp, ?_, ?_⟩
  · dsimp only
    rw [hg]
    rfl
  · simp only [display_results_content, strContains]
    rw [hg]
    simp only [String.data_append, List.append_assoc]
    apply hasSub_append_right
    apply hasSub_append_right
    apply hasSub_append_right
    apply hasSub_append_right
    apply hasSub_append_right
    apply hasSub_append_right
    apply hasSub_append_right
    apply hasSub_append_right
    apply hasSub_append_right
    apply hasSub_append_right
    decide

/-- Witness for C8 at a concrete response without genesis_date. -/
theorem claim8_genesisAbsent_witness :
    ∃ td, get_token_data "addr" (.success respNoAthDate) = .ok td ∧
      td.genesis_date = "N/A" ∧
      strContains (display_results_content td none none none)
        "CoinGecko Listing Date:[/bold] N/A" = true :=
  claim8_genesisAbsent "addr" respNoAthDate (5 / 2) rfl rfl

/-- Counterexample to C9 as stated: the unparseable date string fooZ is
not returned unchanged; because it ends in Z the code first rewrites
the trailing Z to +00:00 and the failure branch returns the rewritten
string. The third conjunct shows the string the code then attempts to
parse is indeed unparseable. -/
theorem claim9_counterexample :
    format_datetime (some "fooZ") = "foo+00:00" ∧ ("foo+00:00" : String) ≠ "fooZ" ∧
    fromisoformat (strReplaceChar 'Z' "+00:00" "foo+00:00") = none :=
  ⟨rfl, by decide, rfl⟩

/-- Claim C9 amended: for every non-empty date string that cannot be
parsed, format_datetime does not fail and returns the input unchanged
when the input does not end in Z; when it ends in Z the returned string
is the input with the trailing Z replaced by +00:00. -/
theorem claim9_unparseableFallback (s : String) (hne : ¬ s = "")
    (hfail : fromisoformat (strReplaceChar 'Z' "+00:00"
        (if endsZ s.data then String.mk s.data.dropLast ++ "+00:00" else s)) = none) :
    format_datetime (some s) =
      (if endsZ s.data then String.mk s.data.dropLast ++ "+00:00" else s) := by
  simp only [format_datetime]
  rw [if_neg hne]
  rw [hfail]

/-- Witness for C9 amended: a plain unparseable string comes back
unchanged, and one with a trailing Z comes back with +00:00. -/
theorem claim9_unparseableFallback_witness :
    format_datetime (some "not-a-date") = "not-a-date" ∧
    format_datetime (some "abcZ") = "abc+00:00" :=
  ⟨claim9_unparseableFallback "not-a-date" (by decide) rfl,
   claim9_unparseableFallback "abcZ" (by decide) rfl⟩

/-- Claim C10: two parseable timestamps with the same calendar date
produce the same history request URL (the time of day is discarded by
the day-month-year formatting), hence identical request traces and
identical results against the same oracle. -/
theorem claim10_sameDay (cid s1 s2 : String) (ho : String → HttpResult HistoryResponse)
    (d1 d2 : PyDateTime)
    (h1 : fromisoformat (strReplaceChar 'Z' "+00:00" s1) = some d1)
    (h2 : fromisoformat (strReplaceChar 'Z' "+00:00" s2) = some d2)
    (hd : d1.day = d2.day) (hm : d1.month = d2.month) (hy : d1.year = d2.year) :
    get_historical_price cid s1 ho = get_historical_price cid s2 ho := by
  have hurl : histURL cid d1 = histURL cid d2 := by
    unfold histURL fmtDMY
    rw [hd, hm, hy]
  unfold get_historical_price
  rw [h1, h2]
  dsimp only
  rw [hurl]

/-- Witness for C10: same day, different times of day (one naive, one
with an explicit UTC offset). -/
theorem claim10_sameDay_witness :
    get_historical_price "tok" "2023-01-01 00:00:00" (fun _ => .success ⟨some 1⟩) =
      get_historical_price "tok" "2023-01-01T15:30:45Z" (fun _ => .success ⟨some 1⟩) :=
  claim10_sameDay "tok" "2023-01-01 00:00:00" "2023-01-01T15:30:45Z"
    (fun _ => .success ⟨some 1⟩)
    ⟨2023, 1, 1, 0, 0, 0, 0, none⟩ ⟨2023, 1, 1, 15, 30, 45, 0, some 0⟩
    rfl rfl rfl rfl rfl

end Getcoinath
